import Mathlib

/-!
Verification of the `da-cloud-rack-cfpages` data-access layer
(`functions/api.ts`): a shallow embedding of the action dispatcher,
query builders and envelope codec, together with proofs of the
specified properties.

Modelling conventions:
* JavaScript values appearing in payloads are modelled by `JSValue`.
  `null` and `undefined` are conflated into `JSValue.null` (every
  operation the code performs — truthiness, loose `!= null` comparison,
  key absence — treats them identically).  JavaScript numbers are
  modelled by `JSValue.int` (integral numbers), `JSValue.numNonInt`
  (finite non-integral numbers) and `JSValue.nan`; the code only ever
  asks `Number.isInteger`, compares with `0`/`500`, and takes a `min`,
  so this is a faithful abstraction.
* A prepared-and-executed statement is a `Stmt` (SQL text plus the
  ordered bind values).  The D1 database is modelled by an oracle
  `Db := Nat → DbResp` giving the store's response to the i-th
  statement submitted while handling one request; the handler result
  is paired with the list of statements submitted to the store.
* Storage exceptions that the source catches (the outer `try`/`catch`
  of `handleApiRequest`, the inner ones of `exec` and `update_c1`) are
  modelled by `DbResp.err` flowing into exactly the result object the
  corresponding `catch` produces.
-/

inductive JSValue where
  | null                                   -- JS null / undefined
  | bool (b : Bool)
  | int (n : Int)                          -- a number with Number.isInteger = true
  | numNonInt                              -- a finite non-integral number
  | nan                                    -- NaN (falsy, not an integer)
  | str (s : String)
  | arr (elems : List JSValue)
  | obj (fields : List (String × JSValue))
deriving Repr, BEq

abbrev JSObj := List (String × JSValue)

/-- JS truthiness (`!x` is the negation of this). -/
def jsTruthy : JSValue → Bool
  | .null => false
  | .bool b => b
  | .int n => n != 0
  | .numNonInt => true
  | .nan => false
  | .str s => s != ""
  | .arr _ => true
  | .obj _ => true

/-- JS loose `x != null` (false exactly for null/undefined). -/
def jsNonNull : JSValue → Bool
  | .null => false
  | _ => true

/-- Property access `v[k]`: fields of an object, `undefined` otherwise
(the code only accesses properties of objects and, harmlessly, of
primitives, where the result is `undefined`). -/
def objFields : JSValue → JSObj
  | .obj fs => fs
  | _ => []

def getPropV (v : JSValue) (k : String) : JSValue :=
  match (objFields v).find? (fun p => p.1 == k) with
  | some p => p.2
  | none => .null

/-- `Object.keys` (empty for primitives, as in JS). -/
def objKeysV (v : JSValue) : List String := (objFields v).map Prod.fst

/-- `typeof v === "object" && v !== null` (arrays and plain objects). -/
def isJsObjectVal : JSValue → Bool
  | .arr _ => true
  | .obj _ => true
  | _ => false

mutual

/-- `JSON.stringify` (string escaping elided; never inspected by the
code, the result is only bound as an opaque value). -/
def jsonStringify : JSValue → String
  | .null => "null"
  | .bool b => if b then "true" else "false"
  | .int n => toString n
  | .numNonInt => "<non-integral number>"
  | .nan => "null"
  | .str s => "\"" ++ s ++ "\""
  | .arr xs => "[" ++ jsonStringifyList xs ++ "]"
  | .obj fs => "\x7b" ++ jsonStringifyFields fs ++ "\x7d"

def jsonStringifyList : List JSValue → String
  | [] => ""
  | [x] => jsonStringify x
  | x :: y :: xs => jsonStringify x ++ "," ++ jsonStringifyList (y :: xs)

def jsonStringifyFields : List (String × JSValue) → String
  | [] => ""
  | [(k, v)] => "\"" ++ k ++ "\":" ++ jsonStringify v
  | (k, v) :: f :: fs =>
      "\"" ++ k ++ "\":" ++ jsonStringify v ++ "," ++ jsonStringifyFields (f :: fs)

end

mutual

/-- Template-literal conversion of a value to a string. -/
def jsTemplate : JSValue → String
  | .null => "null"
  | .bool b => if b then "true" else "false"
  | .int n => toString n
  | .numNonInt => "<non-integral number>"
  | .nan => "NaN"
  | .str s => s
  | .arr xs => jsTemplateList xs
  | .obj _ => "[object Object]"

def jsTemplateList : List JSValue → String
  | [] => ""
  | [x] => jsTemplate x
  | x :: y :: xs => jsTemplate x ++ "," ++ jsTemplateList (y :: xs)

end

/-- `String.prototype.includes` (substring test). -/
def strIncludes (s pat : String) : Bool := decide (pat.toList <:+: s.toList)

/-- `String.prototype.toLowerCase` (the code only ever lowercases SQL
text; ASCII lowering). -/
def jsToLower (s : String) : String := String.mk (s.data.map Char.toLower)

def isWsChar (c : Char) : Bool := c = ' ' || c = '\t' || c = '\n' || c = '\r'

def trimWsList (l : List Char) : List Char :=
  ((l.dropWhile isWsChar).reverse.dropWhile isWsChar).reverse

/-- `String.prototype.trim`. -/
def jsTrim (s : String) : String := String.mk (trimWsList s.data)

-- ================== Statements and the store ==================

/-- A prepared statement: SQL text plus ordered bind values. -/
structure Stmt where
  sql : String
  binds : List JSValue
deriving Repr, BEq

/-- The store's response to one executed statement. -/
inductive DbResp where
  | ok (changes : Nat) (rows : List JSValue) (meta : JSValue)
  | err (msg : String)
deriving Repr, BEq

/-- The D1 store, as an oracle: the response to the i-th statement
submitted while handling one request. -/
abbrev Db := Nat → DbResp

/-- `db.batch`: atomic multi-statement execution.  All statements are
submitted together; the first failing response aborts the batch with
its error, otherwise the number of per-statement results is returned
(`results.length`). -/
def batchRun (db : Db) (i : Nat) : List Stmt → Except String Nat
  | [] => Except.ok 0
  | _ :: rest =>
    match db i with
    | .err m => Except.error m
    | .ok _ _ _ => (batchRun db (i + 1) rest).map (· + 1)

-- ================== Globals (`api.ts` bottom) ==================

def allowedColumns : List String :=
  ["id", "c1", "c2", "c3", "i1", "i2", "i3", "d1", "d2", "d3",
   "t1", "t2", "t3", "v1", "v2", "v3"]

def allowedQueryOptions : List String :=
  ["minId", "offset", "order", "orderby", "limit", "table_name"]

def DB_DA_SYSTEM_TABLENAME : String := "__DA_SYSTEM_CONFIG"

def C_SERVICE : String := "da-cloud-cfd1-rack"

def G_INSTANCE : String := "default"

def FORBIDDEN_TABLES : List String :=
  ["sqlite_master", "sqlite_schema", "sqlite_temp_master", "sqlite_sequence"]

-- ================== Table helpers ==================

/-- `normalizeJsonColumns`: for `t1`,`t2`,`t3`, a non-null value of
object type is replaced by its JSON serialization.  (Keys are
unchanged; primitives pass through; on a non-object the source's
property writes are no-ops.) -/
def normField (p : String × JSValue) : String × JSValue :=
  if ["t1", "t2", "t3"].contains p.1 && isJsObjectVal p.2 then
    (p.1, .str (jsonStringify p.2))
  else p

def normalizeJsonColumns (v : JSValue) : JSValue :=
  match v with
  | .obj fs => .obj (fs.map normField)
  | _ => v

/-- `resolveTableName`.  `payload.table_name?.trim()` is falsy for a
missing/null name and for a blank string; a forbidden catalog name
resolves to null.  On a non-string, non-null `table_name` the source
calls `.trim()` on a value that has none and raises an uncaught
TypeError (`.typeErr`). -/
inductive TableRes where
  | name (t : String)
  | invalid
  | typeErr
deriving Repr, BEq

def resolveTableName (payload : JSValue) : TableRes :=
  match getPropV payload "table_name" with
  | .null => .invalid
  | .str s =>
      if jsTrim s = "" then .invalid
      else if FORBIDDEN_TABLES.contains (jsTrim s) then .invalid
      else .name (jsTrim s)
  | _ => .typeErr

-- ================== Handler results ==================

inductive ApiResult where
  | error (msg : String)
  | fields (fs : List (String × JSValue))
  | nullRes
deriving Repr, BEq

/-- Outcome of `handleApiRequest` plus the statements submitted to the
store.  `.thrown` is an exception escaping the function (only possible
from `resolveTableName`, which runs outside the `try`). -/
inductive HandlerOut where
  | ret (r : ApiResult)
  | thrown
deriving Repr, BEq

-- ================== daCreateTable ==================

def createTableSql (tableName : String) (c1Unique : Bool) : String :=
  let c1Constraint := if c1Unique then "UNIQUE" else ""
  "\n    CREATE TABLE IF NOT EXISTS " ++ tableName ++
  " (\n      id INTEGER PRIMARY KEY AUTOINCREMENT,\n      c1 VARCHAR(255) " ++
  c1Constraint ++
  ",\n      c2 VARCHAR(255), c3 VARCHAR(255),\n      i1 INT, i2 INT, i3 INT,\n      d1 DOUBLE, d2 DOUBLE, d3 DOUBLE,\n      t1 TEXT, t2 TEXT, t3 TEXT,\n      v1 TIMESTAMP DEFAULT CURRENT_TIMESTAMP,\n      v2 TIMESTAMP DEFAULT CURRENT_TIMESTAMP,\n      v3 TIMESTAMP DEFAULT CURRENT_TIMESTAMP\n    );\n  "

def c1IndexSql (t : String) : String :=
  "CREATE INDEX IF NOT EXISTS idx_" ++ t ++ "_c1 ON " ++ t ++ "(c1)"

def v2IndexSql (t : String) : String :=
  "CREATE INDEX IF NOT EXISTS idx_" ++ t ++ "_v2 ON " ++ t ++ "(v2)"

/-- The statements `daCreateTable` submits as one batch: the table DDL,
an index on `c1` only when `c1` is not unique, and an index on `v2`. -/
def daCreateTableStmts (t : String) (u : Bool) : List Stmt :=
  [⟨createTableSql t u, []⟩] ++
  (if u then [] else [⟨c1IndexSql t, []⟩]) ++
  [⟨v2IndexSql t, []⟩]

-- ================== Action branches ==================

def initSystemBranch (db : Db) : HandlerOut × List Stmt :=
  let stmts := daCreateTableStmts DB_DA_SYSTEM_TABLENAME true
  match batchRun db 0 stmts with
  | .error m => (.ret (.error m), stmts)
  | .ok _ =>
      -- After creating the table the source reads the global DB_VERSION,
      -- which is defined nowhere in the repository: a ReferenceError is
      -- raised before the reserved-record batch is built, and the outer
      -- catch converts it into an error result.
      (.ret (.error "DB_VERSION is not defined"), stmts)

def execBranch (payload : JSValue) (db : Db) : HandlerOut × List Stmt :=
  let query := getPropV payload "query"
  if !jsTruthy query then (.ret (.error "Missing SQL query"), [])
  else
    match query with
    | .str q =>
      let lowerQuery := jsTrim (jsToLower q)
      if strIncludes lowerQuery "sqlite_master" || strIncludes lowerQuery "_cf_" then
        (.ret (.error "Access to system tables via EXEC is forbidden."), [])
      else
        let binds := match getPropV payload "params" with
          | .arr xs => xs
          | _ => []
        let stmt : Stmt := ⟨q, binds⟩
        match db 0 with
        | .ok _ rows meta =>
            (.ret (.fields [("success", .bool true), ("results", .arr rows), ("meta", meta)]),
             [stmt])
        | .err m => (.ret (.error ("SQL Execution Error: " ++ m)), [stmt])
    | _ =>
        -- a truthy non-string query: `query.toLowerCase()` raises a
        -- TypeError, converted by the outer catch (engine-specific
        -- message; no theorem depends on this case)
        (.ret (.error "query.toLowerCase is not a function"), [])

def createTableBranch (t : String) (payload : JSValue) (db : Db) : HandlerOut × List Stmt :=
  let u := jsTruthy (getPropV payload "c1_unique")
  let stmts := daCreateTableStmts t u
  match batchRun db 0 stmts with
  | .ok _ => (.ret (.fields [("message", .str ("Table " ++ t ++ " ready."))]), stmts)
  | .error m => (.ret (.error m), stmts)

def listTablesSql : String :=
  "\n          SELECT name FROM sqlite_master\n          WHERE type=\x27table\x27 AND name NOT LIKE \x27sqlite_%\x27 AND name NOT LIKE \x27_cf_%\x27\n        "

def listTablesBranch (db : Db) : HandlerOut × List Stmt :=
  let stmt : Stmt := ⟨listTablesSql, []⟩
  match db 0 with
  | .ok _ rows _ =>
      (.ret (.fields [("count", .int (rows.length : Int)),
                      ("tables", .arr (rows.map (fun r => getPropV r "name")))]),
       [stmt])
  | .err m => (.ret (.error m), [stmt])

/-- One `batch_post` insert: keys outside `allowedColumns` are filtered
out of the record (not rejected). -/
def batchInsertStmt (t : String) (record : JSValue) : Stmt :=
  let r := normalizeJsonColumns record
  let keys := (objKeysV r).filter (fun k => allowedColumns.contains k)
  let placeholders := String.intercalate "," (keys.map (fun _ => "?"))
  ⟨"INSERT INTO " ++ t ++ " (" ++ String.intercalate "," keys ++ ") VALUES (" ++
    placeholders ++ ")",
   keys.map (fun k => getPropV r k)⟩

def batchPostBranch (t : String) (payload : JSValue) (db : Db) : HandlerOut × List Stmt :=
  match getPropV payload "data" with
  | .arr records =>
    -- (a null record would raise a TypeError inside normalizeJsonColumns
    -- in the source, caught by the outer handler; theorems restrict
    -- records to non-null values)
    let stmts := records.map (batchInsertStmt t)
    match batchRun db 0 stmts with
    | .ok n => (.ret (.fields [("inserted", .int (n : Int))]), stmts)
    | .error m => (.ret (.error m), stmts)
  | _ => (.ret (.error "Payload \x27data\x27 must be an array"), [])

def dropTableBranch (t : String) (db : Db) : HandlerOut × List Stmt :=
  let stmt : Stmt := ⟨"DROP TABLE IF EXISTS " ++ t, []⟩
  match db 0 with
  | .ok _ _ _ =>
      (.ret (.fields [("message", .str ("Table " ++ t ++ " has been deleted."))]), [stmt])
  | .err m => (.ret (.error m), [stmt])

def createIndexBranch (t : String) (payload : JSValue) (db : Db) : HandlerOut × List Stmt :=
  let col := getPropV payload "column"
  let colOk := match col with
    | .str s => allowedColumns.contains s
    | _ => false          -- Array.includes never matches a non-string
  if !jsTruthy col || !colOk then
    (.ret (.error ("Invalid column: " ++ jsTemplate col)), [])
  else
    match col with
    | .str s =>
      let indexName := "idx_" ++ t ++ "_" ++ s
      let uniqueStr := if jsTruthy (getPropV payload "unique") then "UNIQUE" else ""
      let stmt : Stmt :=
        ⟨"CREATE " ++ uniqueStr ++ " INDEX IF NOT EXISTS " ++ indexName ++ " ON " ++ t ++
          " (" ++ s ++ ")", []⟩
      match db 0 with
      | .ok _ _ _ =>
          (.ret (.fields [("message", .str ("Index " ++ indexName ++ " created."))]), [stmt])
      | .err m => (.ret (.error m), [stmt])
    | _ => (.ret (.error "Invalid column: "), [])  -- unreachable: colOk forces a string

def listIndicesBranch (t : String) (db : Db) : HandlerOut × List Stmt :=
  let stmt : Stmt := ⟨"PRAGMA index_list(" ++ t ++ ")", []⟩
  match db 0 with
  | .ok _ rows _ => (.ret (.fields [("indices", .arr rows)]), [stmt])
  | .err m => (.ret (.error m), [stmt])

def dropIndexBranch (t : String) (payload : JSValue) (db : Db) : HandlerOut × List Stmt :=
  let col := getPropV payload "column"
  if !jsTruthy col then (.ret (.error "Missing column"), [])
  else
    let indexName := "idx_" ++ t ++ "_" ++ jsTemplate col
    let stmt : Stmt := ⟨"DROP INDEX IF EXISTS " ++ indexName, []⟩
    match db 0 with
    | .ok _ _ _ =>
        (.ret (.fields [("message", .str ("Index " ++ indexName ++ " dropped."))]), [stmt])
    | .err m => (.ret (.error m), [stmt])

def postBranch (t : String) (payload : JSValue) (db : Db) : HandlerOut × List Stmt :=
  let p := normalizeJsonColumns payload
  let keys := (objKeysV p).filter (fun k => k != "table_name")
  let invalidKeys := keys.filter (fun k => !allowedColumns.contains k)
  if !invalidKeys.isEmpty then
    (.ret (.error ("Invalid columns: " ++ String.intercalate ", " invalidKeys)), [])
  else
    let placeholders := String.intercalate "," (keys.map (fun _ => "?"))
    let stmt : Stmt :=
      ⟨"INSERT INTO " ++ t ++ " (" ++ String.intercalate "," keys ++ ") VALUES (" ++
        placeholders ++ ")",
       keys.map (fun k => getPropV p k)⟩
    match db 0 with
    | .ok _ _ _ => (.ret .nullRes, [stmt])
    | .err m => (.ret (.error m), [stmt])

def putBranch (t : String) (payload : JSValue) (db : Db) : HandlerOut × List Stmt :=
  let hasId := jsNonNull (getPropV payload "id")
  let hasC1 := jsNonNull (getPropV payload "c1")
  if !hasId && !hasC1 then
    (.ret (.error ("Missing \x27id\x27 or \x27c1\x27 for update")), [])
  else
    let p := normalizeJsonColumns payload
    let keysPut := (objKeysV p).filter (fun k => !(["table_name", "id", "c1"].contains k))
    let invalidKeys := keysPut.filter (fun k => !allowedColumns.contains k)
    if !invalidKeys.isEmpty then
      (.ret (.error ("Invalid columns: " ++ String.intercalate ", " invalidKeys)), [])
    else
      let whereClause := if hasId then "id = ?" else "c1 = ?"
      let whereValue := if hasId then getPropV p "id" else getPropV p "c1"
      let stmt : Stmt :=
        if keysPut.isEmpty then
          ⟨"UPDATE " ++ t ++ " SET v2 = CURRENT_TIMESTAMP WHERE " ++ whereClause,
           [whereValue]⟩
        else
          ⟨"UPDATE " ++ t ++ " SET " ++
             String.intercalate ", " (keysPut.map (fun k => k ++ " = ?")) ++
             ", v2 = CURRENT_TIMESTAMP WHERE " ++ whereClause,
           keysPut.map (fun k => getPropV p k) ++ [whereValue]⟩
      match db 0 with
      | .ok changes _ _ =>
          if changes = 0 then (.ret (.error "Record not found or no rows updated"), [stmt])
          else (.ret (.fields [("updated", .int (changes : Int))]), [stmt])
      | .err m => (.ret (.error m), [stmt])

def updateC1Branch (t : String) (payload : JSValue) (db : Db) : HandlerOut × List Stmt :=
  if !jsTruthy (getPropV payload "id") || !jsTruthy (getPropV payload "new_c1") then
    (.ret (.error "Missing id or new_c1"), [])
  else
    let stmt : Stmt :=
      ⟨"UPDATE " ++ t ++ " SET c1 = ?, v2 = CURRENT_TIMESTAMP WHERE id = ?",
       [getPropV payload "new_c1", getPropV payload "id"]⟩
    match db 0 with
    | .ok changes _ _ =>
        if changes = 0 then (.ret (.error "Record not found"), [stmt])
        else (.ret (.fields [("renamed", .bool true)]), [stmt])
    | .err m =>
        if strIncludes m "UNIQUE" then (.ret (.error "c1 already exists"), [stmt])
        else (.ret (.error m), [stmt])   -- rethrown, then caught by the outer catch

/-- The `get` row limit (`api.ts` line 252):
`Number.isInteger(limit) && limit > 0 ? Math.min(limit, 500) : 100`. -/
def jsLimitOf : JSValue → Int
  | .int n => if n > 0 then min n 500 else 100
  | _ => 100

def getBranch (t : String) (payload : JSValue) (db : Db) : HandlerOut × List Stmt :=
  let options : JSValue := .obj ((objFields payload).filter (fun kv => kv.1 != "table_name"))
  let columnFilters := (objKeysV options).filter (fun k => !allowedQueryOptions.contains k)
  match columnFilters.find? (fun k => !allowedColumns.contains k) with
  | some k => (.ret (.error ("Invalid column: " ++ k)), [])
  | none =>
    let order := if getPropV options "order" == .str "desc" then "DESC" else "ASC"
    let orderBy := match getPropV options "orderby" with
      | .str s => if allowedColumns.contains s then s else "id"
      | _ => "id"
    if jsNonNull (getPropV options "minId") && jsNonNull (getPropV options "offset") then
      (.ret (.error "Cannot use both minId and offset"), [])
    else
      let conditions := columnFilters.map (fun k => k ++ " = ?")
      let params := columnFilters.map (fun k => getPropV options k)
      let paging :=
        if jsNonNull (getPropV options "offset") then
          some (getPropV options "offset")
        else if jsNonNull (getPropV options "minId") then
          some (getPropV options "minId")
        else none
      let conditions := conditions ++ (match paging with
        | some _ => [orderBy ++ " " ++ (if order = "ASC" then ">" else "<") ++ " ?"]
        | none => [])
      let params := params ++ (match paging with
        | some v => [v]
        | none => [])
      let query := "SELECT * FROM " ++ t ++
        (if conditions.isEmpty then "" else " WHERE " ++ String.intercalate " AND " conditions) ++
        " ORDER BY " ++ orderBy ++ " " ++ order
      let stmt : Stmt := ⟨query ++ " LIMIT " ++ toString (jsLimitOf (getPropV options "limit")), params⟩
      match db 0 with
      | .ok _ rows _ => (.ret (.fields [("rows", .arr rows)]), [stmt])
      | .err m => (.ret (.error m), [stmt])

def deleteBranch (t : String) (payload : JSValue) (db : Db) : HandlerOut × List Stmt :=
  let keys := (objKeysV payload).filter (fun k => k != "table_name")
  let invalidKeys := keys.filter (fun k => !allowedColumns.contains k)
  if !invalidKeys.isEmpty then
    (.ret (.error ("Invalid columns: " ++ String.intercalate ", " invalidKeys)), [])
  else
    let stmt : Stmt :=
      if keys.isEmpty then ⟨"DELETE FROM " ++ t, []⟩  -- errDelegate fires (no DB statement)
      else
        ⟨"DELETE FROM " ++ t ++ " WHERE " ++
           String.intercalate " AND " (keys.map (fun k => k ++ " = ?")),
         keys.map (fun k => getPropV payload k)⟩
    match db 0 with
    | .ok changes _ _ => (.ret (.fields [("deleted", .int (changes : Int))]), [stmt])
    | .err m => (.ret (.error m), [stmt])

-- ================== Core API ==================

def dispatchAction (action : JSValue) (t : String) (payload : JSValue) (db : Db) :
    HandlerOut × List Stmt :=
  match action with
  | .str "init_system" => initSystemBranch db
  | .str "exec" => execBranch payload db
  | .str "create_table" => createTableBranch t payload db
  | .str "list_tables" => listTablesBranch db
  | .str "batch_post" => batchPostBranch t payload db
  | .str "drop_table" => dropTableBranch t db
  | .str "create_index" => createIndexBranch t payload db
  | .str "list_indices" => listIndicesBranch t db
  | .str "drop_index" => dropIndexBranch t payload db
  | .str "post" => postBranch t payload db
  | .str "put" => putBranch t payload db
  | .str "update_c1" => updateC1Branch t payload db
  | .str "get" => getBranch t payload db
  | .str "delete" => deleteBranch t payload db
  | _ => (.ret (.error ("Unknown action: " ++ jsTemplate action)), [])

/-- `handleApiRequest`: table-name resolution happens before the switch;
failure returns the uniform error (after an errDelegate log, which
issues no statement). -/
def handleApiRequest (action : JSValue) (payload : JSValue) (db : Db) :
    HandlerOut × List Stmt :=
  match resolveTableName payload with
  | .invalid => (.ret (.error "Invalid or missing table_name"), [])
  | .typeErr => (.thrown, [])
  | .name t => dispatchAction action t payload db

-- ================== HTTP wrapper / envelope codec ==================

structure Env where
  DA_INSTANCEID : Option String
  DA_WRITE_TOKEN : String

structure HttpReq where
  authHeader : Option String
  body : Except Unit JSValue    -- request.json(); .error = malformed JSON

structure Envelope where
  type : String
  request_id : JSValue
  source_id : String
  payload : JSValue
  status : Nat
deriving Repr, BEq

-- (`ack` itself is taken by Mathlib; the source function `ack` is `ackResp`)
def ackResp (requestId : JSValue) (sourceId : String) (payload : JSValue) : Envelope :=
  ⟨"ack", requestId, sourceId, payload, 200⟩

def nackResp (requestId : JSValue) (sourceId : String) (code msg : String) : Envelope :=
  ⟨"nack", requestId, sourceId,
   .obj [("status", .str "error"), ("code", .str code), ("message", .str msg)], 400⟩

def resultPayload : ApiResult → JSValue
  | .fields fs => .obj fs
  | .nullRes => .obj []      -- `ret || {}`
  | .error _ => .obj []      -- unreachable: error results are nacked

/-- `String.prototype.startsWith`. -/
def listPre : List Char → List Char → Bool
  | [], _ => true
  | _ :: _, [] => false
  | a :: as, b :: bs => a = b && listPre as bs

def jsStartsWith (s pat : String) : Bool := listPre pat.data s.data

/-- `String.prototype.split` with the single-character separator " "
(the only form the code uses): split on every occurrence, keeping
empty fragments, `"" ⇒ [""]`. -/
def splitOnChar (c : Char) : List Char → List (List Char)
  | [] => [[]]
  | a :: rest =>
    match splitOnChar c rest with
    | [] => if a = c then [[], []] else [[a]]   -- unreachable: result is never []
    | g :: gs => if a = c then [] :: g :: gs else (a :: g) :: gs

def jsSplitSpace (s : String) : List String := (splitOnChar ' ' s.data).map String.mk

/-- `env.DA_INSTANCEID || G_INSTANCE`. -/
def instanceIdOf (env : Env) : String :=
  match env.DA_INSTANCEID with
  | some s => if s != "" then s else G_INSTANCE
  | none => G_INSTANCE

/-- `handleApi`.  `Except.error ()` models an exception escaping the
function (a null JSON body, or a non-string `table_name`). -/
def handleApi (req : HttpReq) (env : Env) (db : Db) : Except Unit Envelope :=
  let sourceId := C_SERVICE ++ "/" ++ instanceIdOf env
  match req.authHeader with
  | none => .ok (nackResp (.str "unknown") sourceId "UNAUTHORIZED" "Missing Authorization")
  | some auth =>
    if !jsStartsWith auth "Bearer " then
      .ok (nackResp (.str "unknown") sourceId "UNAUTHORIZED" "Missing Authorization")
    else if (jsSplitSpace auth)[1]? != some env.DA_WRITE_TOKEN then
      .ok (nackResp (.str "unknown") sourceId "INVALID_TOKEN" "Token failed")
    else
      match req.body with
      | .error _ => .ok (nackResp (.str "unknown") sourceId "INVALID_JSON" "Malformed JSON")
      | .ok body =>
        match body with
        | .null => .error ()    -- body.request_id on a null body raises, uncaught
        | _ =>
          let rid := getPropV body "request_id"
          let requestId := if jsTruthy rid then rid else .str "unknown"
          if !jsTruthy (getPropV body "payload") then
            .ok (nackResp requestId sourceId "INVALID_FIELD" "Missing payload")
          else
            let action := if jsTruthy (getPropV body "action") then getPropV body "action"
                          else .str ""
            match handleApiRequest action (getPropV body "payload") db with
            | (.thrown, _) => .error ()
            | (.ret (.error msg), _) => .ok (nackResp requestId sourceId "REQUEST_FAILED" msg)
            | (.ret r, _) => .ok (ackResp requestId sourceId (resultPayload r))

-- ================== Generic helper lemmas ==================

theorem strIncludes_iff (s pat : String) :
    strIncludes s pat = true ↔ pat.toList <:+: s.toList := by
  simp [strIncludes]

theorem normField_fst (p : String × JSValue) : (normField p).1 = p.1 := by
  unfold normField; split <;> rfl

theorem objKeysV_normalize (v : JSValue) :
    objKeysV (normalizeJsonColumns v) = objKeysV v := by
  cases v <;> try rfl
  case obj fs =>
    simp only [normalizeJsonColumns, objKeysV, objFields, List.map_map]
    apply List.map_congr_left
    intro p _
    exact normField_fst p

theorem find?_key_map (fs : List (String × JSValue)) (k : String) :
    (fs.map normField).find? (fun p => p.1 == k) =
      (fs.find? (fun p => p.1 == k)).map normField := by
  induction fs with
  | nil => rfl
  | cons p fs ih =>
    cases h : p.1 == k <;>
      simp [List.find?, normField_fst, h, ih]

theorem getPropV_normalize (v : JSValue) (k : String)
    (hk : (["t1", "t2", "t3"] : List String).contains k = false) :
    getPropV (normalizeJsonColumns v) k = getPropV v k := by
  cases v <;> try rfl
  case obj fs =>
    simp only [normalizeJsonColumns, getPropV, objFields, find?_key_map]
    cases hf : fs.find? (fun p => p.1 == k) with
    | none => rfl
    | some p =>
      have hp : p.1 = k := by
        have := List.find?_some hf
        simpa using this
      have hnf : normField p = p := by
        have hc : ¬(p.1 = "t1" ∨ p.1 = "t2" ∨ p.1 = "t3") := by
          rw [hp]; simpa using hk
        simp [normField, hc]
      simp [Option.map, hnf]

theorem batchRun_ok (db : Db) :
    ∀ (stmts : List Stmt) (i : Nat),
      (∀ j, j < stmts.length → ∃ c r m, db (i + j) = .ok c r m) →
      batchRun db i stmts = .ok stmts.length := by
  intro stmts
  induction stmts with
  | nil => intro i _; rfl
  | cons s rest ih =>
    intro i h
    obtain ⟨c, r, m, hc⟩ := h 0 (by simp)
    rw [Nat.add_zero] at hc
    have hrest : ∀ j, j < rest.length → ∃ c r m, db (i + 1 + j) = .ok c r m := by
      intro j hj
      have := h (j + 1) (by simpa using Nat.succ_lt_succ hj)
      simpa [Nat.add_comm, Nat.add_assoc, Nat.add_left_comm] using this
    simp [batchRun, hc, ih (i + 1) hrest, Except.map]

-- ================== C2 ==================

/-- Claim C2: for every action and every payload whose `table_name` is
absent, blank after trimming, or one of the four forbidden catalog
names, `handleApiRequest` returns the error
"Invalid or missing table_name" before any action-specific logic runs
and submits no database statement. -/
theorem invalidTable_uniform_rejection (action : JSValue) (fs : JSObj) (db : Db)
    (h : getPropV (.obj fs) "table_name" = .null
       ∨ ∃ s, getPropV (.obj fs) "table_name" = .str s ∧
           (jsTrim s = "" ∨
            s ∈ (["sqlite_master", "sqlite_schema", "sqlite_temp_master",
                  "sqlite_sequence"] : List String))) :
    handleApiRequest action (.obj fs) db =
      (.ret (.error "Invalid or missing table_name"), []) := by
  have hres : resolveTableName (.obj fs) = .invalid := by
    rcases h with h | ⟨s, hs, hblank | hforb⟩
    · simp [resolveTableName, h]
    · simp [resolveTableName, hs, hblank]
    · fin_cases hforb <;> simp [resolveTableName, hs] <;> decide
  simp [handleApiRequest, hres]

theorem invalidTable_uniform_rejection_witness :
    handleApiRequest (.str "exec")
        (.obj [("table_name", .str "sqlite_master")]) (fun _ => .ok 1 [] .null) =
      (.ret (.error "Invalid or missing table_name"), []) :=
  invalidTable_uniform_rejection (.str "exec") _ _
    (Or.inr ⟨"sqlite_master", rfl, Or.inr (by decide)⟩)

-- ================== Dispatch and rest-spread lemmas ==================

theorem handleApiRequest_resolved (action payload : JSValue) (db : Db) (t : String)
    (hres : resolveTableName payload = .name t) :
    handleApiRequest action payload db = dispatchAction action t payload db := by
  simp [handleApiRequest, hres]

theorem getPropV_drop_tn (payload : JSValue) (k : String)
    (hk : (k == "table_name") = false) :
    getPropV (.obj ((objFields payload).filter (fun kv => kv.1 != "table_name"))) k
      = getPropV payload k := by
  show (match ((objFields payload).filter (fun kv => kv.1 != "table_name")).find?
      (fun p => p.1 == k) with
    | some p => p.2
    | none => JSValue.null) = getPropV payload k
  rw [getPropV]
  induction objFields payload with
  | nil => rfl
  | cons q fs ih =>
    cases hq : (q.1 == k) with
    | true =>
      have htn : (q.1 != "table_name") = true := by
        have hqk : q.1 = k := by simpa using hq
        rw [hqk]
        simpa using hk
      rw [List.filter_cons_of_pos (by simpa using htn)]
      simp only [List.find?, hq]
    | false =>
      cases htn : (q.1 != "table_name") with
      | true =>
        rw [List.filter_cons_of_pos (by simpa using htn)]
        simp only [List.find?, hq]
        exact ih
      | false =>
        rw [List.filter_cons_of_neg (by simpa using htn)]
        simp only [List.find?, hq]
        exact ih

-- Shared concrete stores for witnesses.

def dbOkOne : Db := fun _ => .ok 1 [] .null

def dbOkZero : Db := fun _ => .ok 0 [] .null

def dbUniqueErr : Db := fun _ => .err "UNIQUE constraint failed: t.c1"

-- ================== C4 ==================

/-- Claim C4: a `put` that supplies an identifying field but zero
remaining updatable keys generates an UPDATE that sets only `v2` (to
the current timestamp), locating the row by `id` when present else by
`c1`; and any `put` whose UPDATE matches zero rows yields the error
"Record not found or no rows updated" instead of a silent success. -/
theorem put_zero_keys_touch_and_notfound (payload : JSValue) (db : Db) (t : String)
    (hres : resolveTableName payload = .name t)
    (hid : jsNonNull (getPropV payload "id") = true ∨
           jsNonNull (getPropV payload "c1") = true) :
    ((∀ k ∈ objKeysV payload, k ∈ (["table_name", "id", "c1"] : List String)) →
      (handleApiRequest (.str "put") payload db).2 =
        [⟨"UPDATE " ++ t ++ " SET v2 = CURRENT_TIMESTAMP WHERE " ++
            (if jsNonNull (getPropV payload "id") then "id = ?" else "c1 = ?"),
          [if jsNonNull (getPropV payload "id") then getPropV payload "id"
           else getPropV payload "c1"]⟩]) ∧
    ((∀ k ∈ (objKeysV payload).filter
        (fun k => !(["table_name", "id", "c1"].contains k)),
        allowedColumns.contains k = true) →
      ∀ rows meta, db 0 = .ok 0 rows meta →
        (handleApiRequest (.str "put") payload db).1 =
          .ret (.error "Record not found or no rows updated")) := by
  have hnid : getPropV (normalizeJsonColumns payload) "id" = getPropV payload "id" :=
    getPropV_normalize _ _ (by decide)
  have hnc1 : getPropV (normalizeJsonColumns payload) "c1" = getPropV payload "c1" :=
    getPropV_normalize _ _ (by decide)
  constructor
  · intro hkeys
    rw [handleApiRequest_resolved _ _ _ _ hres]
    show (putBranch t payload db).2 = _
    have hkp : (objKeysV (normalizeJsonColumns payload)).filter
        (fun k => !(["table_name", "id", "c1"].contains k)) = [] := by
      rw [objKeysV_normalize, List.filter_eq_nil_iff]
      intro k hk
      have := hkeys k hk
      simp at this ⊢
      tauto
    cases hID : jsNonNull (getPropV payload "id") with
    | true =>
        simp only [putBranch, hkp, hID, hnid, hnc1]
        simp only [Bool.not_true, Bool.false_and, List.isEmpty_nil, Bool.not_false,
          List.filter_nil, Bool.false_eq_true, reduceIte]
        cases hdb : db 0 with
        | ok changes rows meta => simp only [hdb]; split <;> rfl
        | err m => simp only [hdb]
    | false =>
        have hC1 : jsNonNull (getPropV payload "c1") = true := by
          rcases hid with h | h
          · rw [hID] at h; exact absurd h (by simp)
          · exact h
        simp only [putBranch, hkp, hID, hC1, hnid, hnc1]
        simp only [Bool.not_true, Bool.not_false, Bool.true_and, Bool.and_false,
          List.isEmpty_nil, List.filter_nil, Bool.false_eq_true, reduceIte]
        cases hdb : db 0 with
        | ok changes rows meta => simp only [hdb]; split <;> rfl
        | err m => simp only [hdb]
  · intro hvalid rows meta hzero
    rw [handleApiRequest_resolved _ _ _ _ hres]
    show (putBranch t payload db).1 = _
    have hfilter : ((objKeysV (normalizeJsonColumns payload)).filter
        (fun k => !(["table_name", "id", "c1"].contains k))).filter
          (fun k => !allowedColumns.contains k) = [] := by
      rw [objKeysV_normalize, List.filter_eq_nil_iff]
      intro k hk
      simpa using hvalid k hk
    cases hID : jsNonNull (getPropV payload "id") with
    | true =>
        simp only [putBranch, hfilter, hID, hzero]
        simp only [Bool.not_true, Bool.false_and, List.isEmpty_nil, Bool.not_false,
          Bool.false_eq_true, reduceIte]
    | false =>
        have hC1 : jsNonNull (getPropV payload "c1") = true := by
          rcases hid with h | h
          · rw [hID] at h; exact absurd h (by simp)
          · exact h
        simp only [putBranch, hfilter, hID, hC1, hzero]
        simp only [Bool.not_true, Bool.not_false, Bool.true_and, Bool.and_false,
          List.isEmpty_nil, Bool.false_eq_true, reduceIte]

theorem put_zero_keys_touch_and_notfound_witness :
    (handleApiRequest (.str "put")
        (.obj [("table_name", .str "t"), ("id", .int 7)]) dbOkZero).2 =
      [⟨"UPDATE " ++ "t" ++ " SET v2 = CURRENT_TIMESTAMP WHERE " ++ "id = ?",
        [.int 7]⟩] ∧
    (handleApiRequest (.str "put")
        (.obj [("table_name", .str "t"), ("id", .int 7)]) dbOkZero).1 =
      .ret (.error "Record not found or no rows updated") := by
  have h := put_zero_keys_touch_and_notfound
    (.obj [("table_name", .str "t"), ("id", .int 7)]) dbOkZero "t" rfl (Or.inl rfl)
  exact ⟨h.1 (by decide), h.2 (by decide) [] .null rfl⟩

-- ================== C9 ==================

/-- Claim C9: the `c1` column never appears among a `put`'s SET keys:
with `id` present the row is located by `id` (`WHERE id = ?`), the SET
keys are the payload keys minus `table_name`/`id`/`c1` (so `c1` is
never among them), and the binds are those keys' values followed by
the `id` value — a payload-supplied `c1` is neither set nor used. -/
theorem put_never_sets_c1 (payload : JSValue) (db : Db) (t : String)
    (hres : resolveTableName payload = .name t)
    (hid : jsNonNull (getPropV payload "id") = true)
    (hvalid : ∀ k ∈ (objKeysV payload).filter
        (fun k => !(["table_name", "id", "c1"].contains k)),
      allowedColumns.contains k = true) :
    "c1" ∉ (objKeysV payload).filter (fun k => !(["table_name", "id", "c1"].contains k)) ∧
    ∃ r pre,
      handleApiRequest (.str "put") payload db =
        (r, [⟨pre ++ " WHERE id = ?",
              ((objKeysV payload).filter
                  (fun k => !(["table_name", "id", "c1"].contains k))).map
                  (fun k => getPropV (normalizeJsonColumns payload) k) ++
                [getPropV payload "id"]⟩]) := by
  constructor
  · intro hmem
    have := List.of_mem_filter hmem
    simp at this
  · have hnid : getPropV (normalizeJsonColumns payload) "id" = getPropV payload "id" :=
      getPropV_normalize _ _ (by decide)
    rw [handleApiRequest_resolved _ _ _ _ hres]
    show ∃ r pre, putBranch t payload db = _
    have hfilter : ((objKeysV (normalizeJsonColumns payload)).filter
        (fun k => !(["table_name", "id", "c1"].contains k))).filter
          (fun k => !allowedColumns.contains k) = [] := by
      rw [objKeysV_normalize, List.filter_eq_nil_iff]
      intro k hk
      simpa using hvalid k hk
    simp only [putBranch, hfilter, hid, hnid]
    simp only [Bool.not_true, Bool.false_and, List.isEmpty_nil, Bool.not_false,
      Bool.false_eq_true, reduceIte]
    simp only [objKeysV_normalize]
    cases hkp : ((objKeysV payload).filter
        (fun k => !(["table_name", "id", "c1"].contains k))).isEmpty with
    | true =>
        have hnil : (objKeysV payload).filter
            (fun k => !(["table_name", "id", "c1"].contains k)) = [] := by
          simpa [List.isEmpty_iff] using hkp
        simp only [hkp, hnil, List.map_nil, List.nil_append, reduceIte]
        cases hdb : db 0 with
        | ok changes rows meta =>
            simp only [hdb]
            split
            · exact ⟨.ret (.error "Record not found or no rows updated"),
                "UPDATE " ++ t ++ " SET v2 = CURRENT_TIMESTAMP",
                by simp [String.append_assoc]⟩
            · exact ⟨.ret (.fields [("updated", .int (changes : Int))]),
                "UPDATE " ++ t ++ " SET v2 = CURRENT_TIMESTAMP",
                by simp [String.append_assoc]⟩
        | err m =>
            simp only [hdb]
            exact ⟨.ret (.error m), "UPDATE " ++ t ++ " SET v2 = CURRENT_TIMESTAMP",
              by simp [String.append_assoc]⟩
    | false =>
        simp only [hkp, Bool.false_eq_true, reduceIte]
        cases hdb : db 0 with
        | ok changes rows meta =>
            simp only [hdb]
            split
            · exact ⟨.ret (.error "Record not found or no rows updated"),
                "UPDATE " ++ t ++ " SET " ++
                  String.intercalate ", "
                    (((objKeysV payload).filter
                      (fun k => !(["table_name", "id", "c1"].contains k))).map
                      (fun k => k ++ " = ?")) ++ ", v2 = CURRENT_TIMESTAMP",
                by simp [String.append_assoc]⟩
            · exact ⟨.ret (.fields [("updated", .int (changes : Int))]),
                "UPDATE " ++ t ++ " SET " ++
                  String.intercalate ", "
                    (((objKeysV payload).filter
                      (fun k => !(["table_name", "id", "c1"].contains k))).map
                      (fun k => k ++ " = ?")) ++ ", v2 = CURRENT_TIMESTAMP",
                by simp [String.append_assoc]⟩
        | err m =>
            simp only [hdb]
            exact ⟨.ret (.error m),
              "UPDATE " ++ t ++ " SET " ++
                String.intercalate ", "
                  (((objKeysV payload).filter
                    (fun k => !(["table_name", "id", "c1"].contains k))).map
                    (fun k => k ++ " = ?")) ++ ", v2 = CURRENT_TIMESTAMP",
              by simp [String.append_assoc]⟩

theorem put_never_sets_c1_witness :
    "c1" ∉ (objKeysV (.obj [("table_name", .str "t"), ("id", .int 7),
        ("c1", .str "zzz"), ("c2", .str "w")])).filter
        (fun k => !(["table_name", "id", "c1"].contains k)) ∧
    ∃ r pre,
      handleApiRequest (.str "put")
          (.obj [("table_name", .str "t"), ("id", .int 7),
                 ("c1", .str "zzz"), ("c2", .str "w")]) dbOkOne =
        (r, [⟨pre ++ " WHERE id = ?",
              ((objKeysV (.obj [("table_name", .str "t"), ("id", .int 7),
                  ("c1", .str "zzz"), ("c2", .str "w")])).filter
                  (fun k => !(["table_name", "id", "c1"].contains k))).map
                  (fun k => getPropV (normalizeJsonColumns
                    (.obj [("table_name", .str "t"), ("id", .int 7),
                           ("c1", .str "zzz"), ("c2", .str "w")])) k) ++
                [getPropV (.obj [("table_name", .str "t"), ("id", .int 7),
                    ("c1", .str "zzz"), ("c2", .str "w")]) "id"]⟩]) :=
  put_never_sets_c1
    (.obj [("table_name", .str "t"), ("id", .int 7),
           ("c1", .str "zzz"), ("c2", .str "w")]) dbOkOne "t"
    rfl rfl (by decide)

-- ================== C10 ==================

/-- Claim C10: `update_c1` rejects any request whose `id` or `new_c1`
is falsy (absent, null, 0, empty string) with "Missing id or new_c1"
and executes no statement — so id 0 can never be targeted — whereas
`put` tests `id != null`, so a payload with `id = 0` passes its check
and a statement is executed. -/
theorem updateC1_falsy_rejected_put_accepts_zero (payload : JSValue) (db : Db)
    (t : String) (hres : resolveTableName payload = .name t) :
    ((jsTruthy (getPropV payload "id") = false ∨
      jsTruthy (getPropV payload "new_c1") = false) →
      handleApiRequest (.str "update_c1") payload db =
        (.ret (.error "Missing id or new_c1"), [])) ∧
    (getPropV payload "id" = .int 0 →
      (∀ k ∈ (objKeysV payload).filter
          (fun k => !(["table_name", "id", "c1"].contains k)),
        allowedColumns.contains k = true) →
      ∃ s r, handleApiRequest (.str "put") payload db = (r, [s])) := by
  constructor
  · intro h
    rw [handleApiRequest_resolved _ _ _ _ hres]
    show updateC1Branch t payload db = _
    rcases h with h | h <;> simp [updateC1Branch, h]
  · intro hid0 hvalid
    rw [handleApiRequest_resolved _ _ _ _ hres]
    show ∃ s r, putBranch t payload db = (r, [s])
    have hfilter : ((objKeysV (normalizeJsonColumns payload)).filter
        (fun k => !(["table_name", "id", "c1"].contains k))).filter
          (fun k => !allowedColumns.contains k) = [] := by
      rw [objKeysV_normalize]
      rw [List.filter_eq_nil_iff]
      intro k hk
      simpa using hvalid k hk
    simp only [putBranch, hid0, hfilter, jsNonNull]
    simp only [Bool.not_true, Bool.false_and, Bool.not_false, List.isEmpty_nil,
      if_false, Bool.false_eq_true, reduceIte]
    cases hdb : db 0 with
    | ok changes rows meta =>
        simp only [hdb]
        split
        · exact ⟨_, _, rfl⟩
        · exact ⟨_, _, rfl⟩
    | err m =>
        simp only [hdb]
        exact ⟨_, _, rfl⟩

theorem updateC1_falsy_rejected_put_accepts_zero_witness :
    handleApiRequest (.str "update_c1")
        (.obj [("table_name", .str "t"), ("id", .int 0), ("new_c1", .str "a")])
        dbOkOne =
      (.ret (.error "Missing id or new_c1"), []) ∧
    ∃ s r, handleApiRequest (.str "put")
        (.obj [("table_name", .str "t"), ("id", .int 0), ("c2", .str "w")])
        dbOkOne = (r, [s]) :=
  ⟨(updateC1_falsy_rejected_put_accepts_zero
      (.obj [("table_name", .str "t"), ("id", .int 0), ("new_c1", .str "a")])
      dbOkOne "t" rfl).1 (Or.inl rfl),
   (updateC1_falsy_rejected_put_accepts_zero
      (.obj [("table_name", .str "t"), ("id", .int 0), ("c2", .str "w")])
      dbOkOne "t" rfl).2 rfl (by decide)⟩

-- ================== C6 ==================

/-- Claim C6: when the `update_c1` UPDATE fails with a storage error,
an error message containing the uniqueness-violation marker "UNIQUE"
becomes the domain error "c1 already exists", and any other message is
rethrown and surfaces unchanged from the outer handler — never
mislabelled. -/
theorem updateC1_unique_violation_translation (payload : JSValue) (db : Db)
    (t : String) (m : String)
    (hres : resolveTableName payload = .name t)
    (hid : jsTruthy (getPropV payload "id") = true)
    (hnew : jsTruthy (getPropV payload "new_c1") = true)
    (herr : db 0 = .err m) :
    handleApiRequest (.str "update_c1") payload db =
      (.ret (.error (if strIncludes m "UNIQUE" then "c1 already exists" else m)),
       [⟨"UPDATE " ++ t ++ " SET c1 = ?, v2 = CURRENT_TIMESTAMP WHERE id = ?",
         [getPropV payload "new_c1", getPropV payload "id"]⟩]) := by
  rw [handleApiRequest_resolved _ _ _ _ hres]
  show updateC1Branch t payload db = _
  simp only [updateC1Branch, hid, hnew, herr]
  by_cases h : strIncludes m "UNIQUE" = true <;> simp [h]

theorem updateC1_unique_violation_translation_witness :
    handleApiRequest (.str "update_c1")
        (.obj [("table_name", .str "t"), ("id", .int 3), ("new_c1", .str "a")])
        dbUniqueErr =
      (.ret (.error (if strIncludes "UNIQUE constraint failed: t.c1" "UNIQUE"
          then "c1 already exists" else "UNIQUE constraint failed: t.c1")),
       [⟨"UPDATE " ++ "t" ++ " SET c1 = ?, v2 = CURRENT_TIMESTAMP WHERE id = ?",
         [.str "a", .int 3]⟩]) :=
  updateC1_unique_violation_translation
    (.obj [("table_name", .str "t"), ("id", .int 3), ("new_c1", .str "a")])
    dbUniqueErr "t" "UNIQUE constraint failed: t.c1" rfl rfl rfl rfl

-- ================== C5 ==================

/-- Claim C5: the row limit appended to a `get` query is
`payload.limit` for an integer 0 < limit ≤ 500, capped at 500 for an
integer above 500, and 100 in every other case (absent, non-integer,
zero, negative); the executed statement's SQL ends in exactly that
`LIMIT`. -/
theorem get_limit_clamping (payload : JSValue) (db : Db) (t : String)
    (hres : resolveTableName payload = .name t)
    (hkeys : ∀ k ∈ objKeysV payload,
      allowedQueryOptions.contains k = true ∨ allowedColumns.contains k = true)
    (hpage : (jsNonNull (getPropV payload "minId") &&
              jsNonNull (getPropV payload "offset")) = false) :
    (∃ r pre binds,
      handleApiRequest (.str "get") payload db =
        (r, [⟨pre ++ " LIMIT " ++ toString (jsLimitOf (getPropV payload "limit")),
              binds⟩])) ∧
    (∀ n : Int, getPropV payload "limit" = .int n → 0 < n → n ≤ 500 →
      jsLimitOf (getPropV payload "limit") = n) ∧
    (∀ n : Int, getPropV payload "limit" = .int n → 500 < n →
      jsLimitOf (getPropV payload "limit") = 500) ∧
    ((∀ n : Int, getPropV payload "limit" = .int n → n ≤ 0) →
      jsLimitOf (getPropV payload "limit") = 100) := by
  refine ⟨?_, ?_, ?_, ?_⟩
  · rw [handleApiRequest_resolved _ _ _ _ hres]
    show ∃ r pre binds, getBranch t payload db = _
    have hfind : ((objKeysV (JSValue.obj
          ((objFields payload).filter (fun kv => kv.1 != "table_name")))).filter
            (fun k => !allowedQueryOptions.contains k)).find?
              (fun k => !allowedColumns.contains k) = none := by
      rw [List.find?_eq_none]
      intro k hk
      have h1 : allowedQueryOptions.contains k = false := by
        simpa using List.of_mem_filter hk
      have h2 := List.mem_of_mem_filter hk
      have h3 : k ∈ objKeysV payload := by
        simp only [objKeysV, objFields] at h2 ⊢
        obtain ⟨kv, hkv, rfl⟩ := List.mem_map.mp h2
        exact List.mem_map_of_mem _ (List.mem_of_mem_filter hkv)
      rcases hkeys k h3 with h | h
      · rw [h1] at h
        exact absurd h (by simp)
      · simpa using h
    simp only [getBranch, hfind]
    rw [getPropV_drop_tn payload "minId" (by decide),
      getPropV_drop_tn payload "offset" (by decide),
      getPropV_drop_tn payload "limit" (by decide)]
    simp only [hpage, Bool.false_eq_true, reduceIte]
    cases hdb : db 0 with
    | ok changes rows meta =>
        simp only [hdb]
        exact ⟨_, _, _, rfl⟩
    | err m =>
        simp only [hdb]
        exact ⟨_, _, _, rfl⟩
  · intro n h hpos hle
    rw [h]
    simp [jsLimitOf, hpos, min_eq_left hle]
  · intro n h hgt
    rw [h]
    simp only [jsLimitOf, min_eq_right (by omega : (500 : Int) ≤ n)]
    have : 0 < n := by omega
    simp [this]
  · intro h100
    cases hv : getPropV payload "limit" <;> simp [jsLimitOf]
    case int n =>
      have := h100 n hv
      intro hpos
      omega

theorem get_limit_clamping_witness :
    (∃ r pre binds,
      handleApiRequest (.str "get")
          (.obj [("table_name", .str "t"), ("limit", .int 700)]) dbOkOne =
        (r, [⟨pre ++ " LIMIT " ++
              toString (jsLimitOf (getPropV
                (.obj [("table_name", .str "t"), ("limit", .int 700)]) "limit")),
              binds⟩])) ∧
    (∀ n : Int, getPropV (.obj [("table_name", .str "t"), ("limit", .int 700)])
          "limit" = .int n → 0 < n → n ≤ 500 →
      jsLimitOf (getPropV (.obj [("table_name", .str "t"), ("limit", .int 700)])
        "limit") = n) ∧
    (∀ n : Int, getPropV (.obj [("table_name", .str "t"), ("limit", .int 700)])
          "limit" = .int n → 500 < n →
      jsLimitOf (getPropV (.obj [("table_name", .str "t"), ("limit", .int 700)])
        "limit") = 500) ∧
    ((∀ n : Int, getPropV (.obj [("table_name", .str "t"), ("limit", .int 700)])
          "limit" = .int n → n ≤ 0) →
      jsLimitOf (getPropV (.obj [("table_name", .str "t"), ("limit", .int 700)])
        "limit") = 100) :=
  get_limit_clamping (.obj [("table_name", .str "t"), ("limit", .int 700)])
    dbOkOne "t" rfl (by decide) rfl

theorem infix_dropWhile_of_no_sat (p : Char → Bool) {pat : List Char} :
    ∀ {l : List Char}, pat <:+: l → pat ≠ [] → (∀ c ∈ pat, p c = false) →
      pat <:+: l.dropWhile p := by
  intro l
  induction l with
  | nil =>
    intro h hne _
    rw [List.infix_nil] at h
    exact absurd h hne
  | cons a l ih =>
    intro h hne hno
    by_cases hpa : p a
    · rw [List.dropWhile_cons_of_pos hpa]
      apply ih ?_ hne hno
      rcases List.infix_cons_iff.mp h with hpre | hinf
      · cases pat with
        | nil => exact absurd rfl hne
        | cons c cs =>
          have hc : c = a := (List.cons_prefix_cons.mp hpre).1
          have := hno c (by simp)
          rw [hc, hpa] at this
          exact absurd this (by simp)
      · exact hinf
    · rw [List.dropWhile_cons_of_neg hpa]
      exact h

theorem infix_trimWs {pat l : List Char}
    (h : pat <:+: l) (hne : pat ≠ []) (hno : ∀ c ∈ pat, isWsChar c = false) :
    pat <:+: trimWsList l := by
  unfold trimWsList
  have h1 : pat <:+: l.dropWhile isWsChar := infix_dropWhile_of_no_sat _ h hne hno
  have h2 : pat.reverse <:+: (l.dropWhile isWsChar).reverse := h1.reverse
  have h3 : pat.reverse <:+: ((l.dropWhile isWsChar).reverse).dropWhile isWsChar :=
    infix_dropWhile_of_no_sat _ h2 (by simpa using hne) (by
      intro c hc
      exact hno c (by simpa using hc))
  have h4 := h3.reverse
  simpa using h4

-- ================== C3 ==================

/-- Claim C3: an `exec` request whose query text, after lowercasing,
contains "sqlite_master" or "_cf_" (hence case-insensitively in the
original) returns the error "Access to system tables via EXEC is
forbidden." and no statement is ever submitted to the store. -/
theorem exec_rejects_catalog_queries (payload : JSValue) (db : Db) (t : String) (q : String)
    (hres : resolveTableName payload = .name t)
    (hq : getPropV payload "query" = .str q)
    (h : strIncludes (jsToLower q) "sqlite_master" = true ∨
         strIncludes (jsToLower q) "_cf_" = true) :
    handleApiRequest (.str "exec") payload db =
      (.ret (.error "Access to system tables via EXEC is forbidden."), []) := by
  rw [handleApiRequest_resolved _ _ _ _ hres]
  show execBranch payload db = _
  have hqne : (q != "") = true := by
    rcases h with h | h <;>
    · rw [strIncludes_iff] at h
      by_contra hcon
      have hq0 : q = "" := by simpa using hcon
      rw [hq0] at h
      revert h
      decide
  have hcond : (strIncludes (jsTrim (jsToLower q)) "sqlite_master" ||
      strIncludes (jsTrim (jsToLower q)) "_cf_") = true := by
    rcases h with h | h
    · apply Bool.or_eq_true_iff.mpr
      left
      rw [strIncludes_iff] at h ⊢
      exact infix_trimWs h (by decide) (by decide)
    · apply Bool.or_eq_true_iff.mpr
      right
      rw [strIncludes_iff] at h ⊢
      exact infix_trimWs h (by decide) (by decide)
  simp only [execBranch, hq, jsTruthy, hqne, Bool.not_true, Bool.false_eq_true,
    reduceIte, hcond]

theorem exec_rejects_catalog_queries_witness :
    handleApiRequest (.str "exec")
        (.obj [("table_name", .str "t"),
               ("query", .str "SELECT * FROM SQLite_Master")]) dbOkOne =
      (.ret (.error "Access to system tables via EXEC is forbidden."), []) :=
  exec_rejects_catalog_queries
    (.obj [("table_name", .str "t"),
           ("query", .str "SELECT * FROM SQLite_Master")]) dbOkOne "t"
    "SELECT * FROM SQLite_Master" rfl rfl (Or.inl (by decide))

-- ================== C1 ==================

/-- Claim C1 is false on the code: a `batch_post` record containing the
key "bogus" (outside the column allow-list) is not rejected — the key
is silently dropped, an insert statement is submitted, and the result
reports `inserted: 1`, not an error. -/
theorem batchPost_invalid_key_not_rejected :
    handleApiRequest (.str "batch_post")
        (.obj [("table_name", .str "t"),
               ("data", .arr [.obj [("bogus", .int 1)]])]) dbOkOne =
      (.ret (.fields [("inserted", .int 1)]),
       [⟨"INSERT INTO t () VALUES ()", []⟩]) ∧
    ∀ msg, (handleApiRequest (.str "batch_post")
        (.obj [("table_name", .str "t"),
               ("data", .arr [.obj [("bogus", .int 1)]])]) dbOkOne).1 ≠
      .ret (.error msg) := by
  constructor
  · rfl
  · intro msg h
    exact ApiResult.noConfusion (HandlerOut.ret.inj h)

/-- Claim C1 (amended): `batch_post` never rejects records for invalid
keys — each record's keys outside the allow-list are silently filtered
out of its insert — and for any array of N non-null records whose
batch the store accepts, the result reports `inserted: N` and exactly
the N per-record inserts are submitted. -/
theorem batchPost_filters_keys_and_counts (payload : JSValue) (db : Db) (t : String)
    (records : List JSValue)
    (hres : resolveTableName payload = .name t)
    (hdata : getPropV payload "data" = .arr records)
    (_hrec : ∀ r ∈ records, jsNonNull r = true)
    (hok : ∀ j, j < records.length → ∃ c r m, db j = .ok c r m) :
    handleApiRequest (.str "batch_post") payload db =
      (.ret (.fields [("inserted", .int (records.length : Int))]),
       records.map (batchInsertStmt t)) := by
  rw [handleApiRequest_resolved _ _ _ _ hres]
  show batchPostBranch t payload db = _
  have hbatch : batchRun db 0 (records.map (batchInsertStmt t)) =
      .ok (records.map (batchInsertStmt t)).length :=
    batchRun_ok db _ 0 (by simpa using hok)
  simp only [batchPostBranch, hdata, hbatch, List.length_map]

theorem batchPost_filters_keys_and_counts_witness :
    handleApiRequest (.str "batch_post")
        (.obj [("table_name", .str "t"),
               ("data", .arr [.obj [("bogus", .int 1)], .obj [("c1", .str "x")]])])
        dbOkOne =
      (.ret (.fields [("inserted", .int 2)]),
       [⟨"INSERT INTO t () VALUES ()", []⟩,
        ⟨"INSERT INTO t (c1) VALUES (?)", [.str "x"]⟩]) := by
  have h := batchPost_filters_keys_and_counts
    (.obj [("table_name", .str "t"),
           ("data", .arr [.obj [("bogus", .int 1)], .obj [("c1", .str "x")]])])
    dbOkOne "t" [.obj [("bogus", .int 1)], .obj [("c1", .str "x")]]
    rfl rfl (by intro r hr; fin_cases hr <;> rfl)
    (fun j _ => ⟨1, [], .null, rfl⟩)
  rw [h]
  rfl

theorem infix_append_left {α : Type} {l X : List α} (Y : List α) (h : l <:+: X) :
    l <:+: X ++ Y :=
  h.trans (X.prefix_append Y).isInfix

theorem infix_append_right {α : Type} {l Y : List α} (X : List α) (h : l <:+: Y) :
    l <:+: X ++ Y :=
  h.trans (List.suffix_append X Y).isInfix

theorem infix_append_decomp {α : Type} {l X Y : List α} (h : l <:+: X ++ Y) :
    l <:+: X ∨ l <:+: Y ∨
      ∃ l₁ l₂, l = l₁ ++ l₂ ∧ l₁ ≠ [] ∧ l₂ ≠ [] ∧ l₁ <:+ X ∧ l₂ <+: Y := by
  obtain ⟨a, b, hab⟩ := h
  rw [List.append_assoc] at hab
  rcases List.append_eq_append_iff.mp hab with ⟨a', ha1, ha2⟩ | ⟨c', hc1, hc2⟩
  · rcases List.append_eq_append_iff.mp ha2 with ⟨w, hw1, hw2⟩ | ⟨w, hw1, hw2⟩
    · left
      exact ⟨a, w, by rw [ha1, hw1, List.append_assoc]⟩
    · rcases eq_or_ne a' [] with rfl | hne1
      · right; left
        simp only [List.nil_append] at hw1
        exact ⟨[], b, by rw [hw2, hw1]; rfl⟩
      · rcases eq_or_ne w [] with rfl | hne2
        · left
          refine ⟨a, [], ?_⟩
          rw [List.append_nil] at hw1
          rw [ha1, hw1, List.append_nil]
        · right; right
          exact ⟨a', w, hw1, hne1, hne2, ⟨a, ha1.symm⟩, ⟨b, hw2.symm⟩⟩
  · right; left
    exact ⟨c', b, by rw [hc2, List.append_assoc]⟩

theorem mem_of_suffix_concat {l X : List Char} {c : Char}
    (h : l <:+ X ++ [c]) (hne : l ≠ []) : c ∈ l := by
  obtain ⟨w, hw⟩ := h
  have h1 : (w ++ l).getLast? = (X ++ [c]).getLast? := by rw [hw]
  rw [List.getLast?_concat] at h1
  rw [List.getLast?_append_of_ne_nil _ hne] at h1
  exact List.mem_of_mem_getLast? h1

theorem mem_of_prefix_cons {l R : List Char} {c : Char}
    (h : l <+: c :: R) (hne : l ≠ []) : c ∈ l := by
  cases l with
  | nil => exact absurd rfl hne
  | cons a l' =>
    have := (List.cons_prefix_cons.mp h).1
    rw [this]
    exact List.mem_cons_self _ _

theorem toList_append (a b : String) : (a ++ b).toList = a.toList ++ b.toList := rfl

theorem toList_empty : ("" : String).toList = [] := rfl

set_option maxRecDepth 4096

theorem createTableSql_toList (t : String) (u : Bool) :
    (createTableSql t u).toList =
      "\n    CREATE TABLE IF NOT EXISTS ".toList ++ (t.toList ++
        (" (\n      id INTEGER PRIMARY KEY AUTOINCREMENT,\n      c1 VARCHAR(255) ".toList ++
          ((if u then "UNIQUE" else "").toList ++
            ",\n      c2 VARCHAR(255), c3 VARCHAR(255),\n      i1 INT, i2 INT, i3 INT,\n      d1 DOUBLE, d2 DOUBLE, d3 DOUBLE,\n      t1 TEXT, t2 TEXT, t3 TEXT,\n      v1 TIMESTAMP DEFAULT CURRENT_TIMESTAMP,\n      v2 TIMESTAMP DEFAULT CURRENT_TIMESTAMP,\n      v3 TIMESTAMP DEFAULT CURRENT_TIMESTAMP\n    );\n  ".toList))) := by
  cases u <;>
    simp only [createTableSql, toList_append, List.append_assoc, Bool.false_eq_true,
      reduceIte]

theorem c1IndexSql_toList (t : String) :
    (c1IndexSql t).toList =
      "CREATE INDEX IF NOT EXISTS idx_".toList ++ (t.toList ++
        ("_c1 ON ".toList ++ (t.toList ++ "(c1)".toList))) := by
  simp only [c1IndexSql, toList_append, List.append_assoc]

theorem v2IndexSql_toList (t : String) :
    (v2IndexSql t).toList =
      "CREATE INDEX IF NOT EXISTS idx_".toList ++ (t.toList ++
        ("_v2 ON ".toList ++ (t.toList ++ "(v2)".toList))) := by
  simp only [v2IndexSql, toList_append, List.append_assoc]

-- ================== C7 ==================

/-- Claim C7: a `create_table` request submits exactly the fixed-schema
CREATE TABLE (whose `c1` column carries UNIQUE iff `c1_unique` is
truthy), then an index on `c1` exactly when `c1_unique` is falsy, then
always an index on `v2`; every submitted statement uses IF NOT EXISTS
semantics, so repetition is idempotent.  (The hypothesis that the
table name itself does not contain "UNIQUE" rules out a name smuggling
the marker into the DDL text.) -/
theorem daCreateTable_schema (payload : JSValue) (db : Db) (t : String) (u : Bool)
    (hres : resolveTableName payload = .name t)
    (hu : jsTruthy (getPropV payload "c1_unique") = u)
    (ht : strIncludes t "UNIQUE" = false) :
    ((handleApiRequest (.str "create_table") payload db).2 = daCreateTableStmts t u) ∧
    (daCreateTableStmts t u =
      if u then [⟨createTableSql t u, []⟩, ⟨v2IndexSql t, []⟩]
      else [⟨createTableSql t u, []⟩, ⟨c1IndexSql t, []⟩, ⟨v2IndexSql t, []⟩]) ∧
    (∀ s ∈ daCreateTableStmts t u, strIncludes s.sql "IF NOT EXISTS" = true) ∧
    strIncludes (createTableSql t u) "UNIQUE" = u := by
  refine ⟨?_, by cases u <;> rfl, ?_, ?_⟩
  · rw [handleApiRequest_resolved _ _ _ _ hres]
    show (createTableBranch t payload db).2 = _
    simp only [createTableBranch, hu]
    cases hb : batchRun db 0 (daCreateTableStmts t u) <;> simp only [hb]
  · intro s hs
    have htab : strIncludes (createTableSql t u) "IF NOT EXISTS" = true := by
      rw [strIncludes_iff, createTableSql_toList]
      exact infix_append_left _ (by decide)
    have hc1 : strIncludes (c1IndexSql t) "IF NOT EXISTS" = true := by
      rw [strIncludes_iff, c1IndexSql_toList]
      exact infix_append_left _ (by decide)
    have hv2 : strIncludes (v2IndexSql t) "IF NOT EXISTS" = true := by
      rw [strIncludes_iff, v2IndexSql_toList]
      exact infix_append_left _ (by decide)
    cases u with
    | true =>
        simp [daCreateTableStmts] at hs
        rcases hs with rfl | rfl
        · exact htab
        · exact hv2
    | false =>
        simp [daCreateTableStmts] at hs
        rcases hs with rfl | rfl | rfl
        · exact htab
        · exact hc1
        · exact hv2
  · cases u with
    | true =>
      rw [strIncludes_iff, createTableSql_toList]
      apply infix_append_right
      apply infix_append_right
      apply infix_append_right
      exact infix_append_left _ List.infix_rfl
    | false =>
      apply Bool.eq_false_iff.mpr
      intro h
      rw [strIncludes_iff, createTableSql_toList] at h
      simp only [Bool.false_eq_true, reduceIte, toList_empty, List.nil_append] at h
      rcases infix_append_decomp h with h1 | h2 | ⟨l₁, l₂, hl, hne1, hne2, hsfx, hpre⟩
      · exact absurd h1 (by decide)
      · rcases infix_append_decomp h2 with h3 | h4 | ⟨l₁, l₂, hl, hne1, hne2, hsfx, hpre⟩
        · exact absurd ((strIncludes_iff t "UNIQUE").mpr h3) (by simp [ht])
        · exact absurd h4 (by decide)
        · have hbd : " (\n      id INTEGER PRIMARY KEY AUTOINCREMENT,\n      c1 VARCHAR(255) ".toList ++
              ",\n      c2 VARCHAR(255), c3 VARCHAR(255),\n      i1 INT, i2 INT, i3 INT,\n      d1 DOUBLE, d2 DOUBLE, d3 DOUBLE,\n      t1 TEXT, t2 TEXT, t3 TEXT,\n      v1 TIMESTAMP DEFAULT CURRENT_TIMESTAMP,\n      v2 TIMESTAMP DEFAULT CURRENT_TIMESTAMP,\n      v3 TIMESTAMP DEFAULT CURRENT_TIMESTAMP\n    );\n  ".toList =
              ' ' :: ("(\n      id INTEGER PRIMARY KEY AUTOINCREMENT,\n      c1 VARCHAR(255) ".toList ++
              ",\n      c2 VARCHAR(255), c3 VARCHAR(255),\n      i1 INT, i2 INT, i3 INT,\n      d1 DOUBLE, d2 DOUBLE, d3 DOUBLE,\n      t1 TEXT, t2 TEXT, t3 TEXT,\n      v1 TIMESTAMP DEFAULT CURRENT_TIMESTAMP,\n      v2 TIMESTAMP DEFAULT CURRENT_TIMESTAMP,\n      v3 TIMESTAMP DEFAULT CURRENT_TIMESTAMP\n    );\n  ".toList) := rfl
          rw [hbd] at hpre
          have hsp : ' ' ∈ l₂ := mem_of_prefix_cons hpre hne2
          have : ' ' ∈ "UNIQUE".toList := by
            rw [hl]
            exact List.mem_append.mpr (Or.inr hsp)
          exact absurd this (by decide)
      · have ha : "\n    CREATE TABLE IF NOT EXISTS ".toList =
            "\n    CREATE TABLE IF NOT EXISTS".toList ++ [' '] := rfl
        rw [ha] at hsfx
        have hsp : ' ' ∈ l₁ := mem_of_suffix_concat hsfx hne1
        have : ' ' ∈ "UNIQUE".toList := by
          rw [hl]
          exact List.mem_append.mpr (Or.inl hsp)
        exact absurd this (by decide)

theorem daCreateTable_schema_witness :
    ((handleApiRequest (.str "create_table")
        (.obj [("table_name", .str "t"), ("c1_unique", .bool true)]) dbOkOne).2 =
      daCreateTableStmts "t" true) ∧
    (daCreateTableStmts "t" true =
      if true then [⟨createTableSql "t" true, []⟩, ⟨v2IndexSql "t", []⟩]
      else [⟨createTableSql "t" true, []⟩, ⟨c1IndexSql "t", []⟩,
            ⟨v2IndexSql "t", []⟩]) ∧
    (∀ s ∈ daCreateTableStmts "t" true,
      strIncludes s.sql "IF NOT EXISTS" = true) ∧
    strIncludes (createTableSql "t" true) "UNIQUE" = true :=
  daCreateTable_schema (.obj [("table_name", .str "t"), ("c1_unique", .bool true)])
    dbOkOne "t" true rfl rfl (by decide)

-- ================== C8 ==================

/-- Claim C8 is false on the code: a request whose body supplies
`request_id` "abc" but whose Authorization header is missing is nacked
with `request_id` "unknown", not "abc" (the body is never read on the
auth-failure paths). -/
theorem requestId_not_echoed_on_auth_failure :
    handleApi ⟨none, .ok (.obj [("request_id", .str "abc"),
          ("payload", .obj [("table_name", .str "t")]), ("action", .str "get")])⟩
        ⟨none, "tok"⟩ dbOkOne =
      .ok (nackResp (.str "unknown") "da-cloud-cfd1-rack/default"
        "UNAUTHORIZED" "Missing Authorization") ∧
    (JSValue.str "unknown") ≠ (JSValue.str "abc") := by
  refine ⟨rfl, ?_⟩
  intro hcon
  exact absurd (JSValue.str.inj hcon) (by decide)

/-- The request id the envelope actually carries (amended claim): the
caller-supplied `body.request_id` only when authentication succeeds,
the JSON body parses, and the supplied value is truthy; in every other
situation (auth failure, malformed JSON, absent or falsy request_id)
the sentinel "unknown". -/
def echoedRequestId (req : HttpReq) (env : Env) : JSValue :=
  match req.authHeader with
  | none => .str "unknown"
  | some auth =>
    if !jsStartsWith auth "Bearer " then .str "unknown"
    else if (jsSplitSpace auth)[1]? != some env.DA_WRITE_TOKEN then .str "unknown"
    else match req.body with
      | .error _ => .str "unknown"
      | .ok body =>
          if jsTruthy (getPropV body "request_id") then getPropV body "request_id"
          else .str "unknown"

/-- Claim C8 (amended): for every request whose handling produces an
envelope, the envelope's `request_id` equals `echoedRequestId` — the
supplied id exactly when auth passed, the body parsed, and the id is
truthy; otherwise "unknown". -/
theorem requestId_echo_amended (req : HttpReq) (env : Env) (db : Db) (e : Envelope)
    (h : handleApi req env db = .ok e) :
    e.request_id = echoedRequestId req env := by
  obtain ⟨auth, body⟩ := req
  simp only [handleApi] at h
  repeat' split at h
  all_goals first
    | (simp only [Except.ok.injEq] at h
       rw [← h]
       simp [echoedRequestId, nackResp, ackResp, *])
    | simp at h

theorem requestId_echo_amended_witness :
    (nackResp (.str "r1") "da-cloud-cfd1-rack/default" "REQUEST_FAILED"
        "Unknown action: noop").request_id =
      echoedRequestId ⟨some "Bearer tok", .ok (.obj [("request_id", .str "r1"),
        ("payload", .obj [("table_name", .str "t")]), ("action", .str "noop")])⟩
        ⟨none, "tok"⟩ :=
  requestId_echo_amended
    ⟨some "Bearer tok", .ok (.obj [("request_id", .str "r1"),
      ("payload", .obj [("table_name", .str "t")]), ("action", .str "noop")])⟩
    ⟨none, "tok"⟩ dbOkOne _ (by rfl)
